import Mathlib

/-!
Verification development for the nethercore ZX guest/host ABI.

The repository ships the C FFI headers of the ABI (src/include/zx.h,
src/include/emberware_zx.h), an example game (src/examples/hello-world-c/game.c)
and the header template of the FFI generator.  The host-side implementations of
the tick clock, input snapshot, resource registry, EPU decoder, ROM pack and
save slots are not part of the repository sources; those components are
modelled here from the specification and from the contract stated in the header
doc comments.  The example game and the inline helper functions are embedded
directly from the C sources.
-/

namespace Nethercore

/-! ## Tick clock -/

/-- Modelled from the spec: the tick-rate index accepted by set_tick_rate
(src/include/emberware_zx.h lines 140-144).  The host tick-clock implementation
is not under src/.  Index 0 = 24fps, 1 = 30fps, 2 = 60fps, 3 = 120fps. -/
def tickRateFps : Fin 4 → ℕ
  | 0 => 24
  | 1 => 30
  | 2 => 60
  | 3 => 120

/-- Modelled from the spec: the fixed per-tick delta is the exact rational
1 / fps chosen once at initialization (spec section 3, Fixed Delta). -/
def fixedDelta (rate : Fin 4) : ℚ := 1 / tickRateFps rate

/-- Modelled from the spec: the tick clock owns the rate chosen during init and
a tick counter starting at 0 (spec sections 3 and 4.1). -/
structure TickClock where
  rate : Fin 4
  tick : ℕ

/-- Modelled from the spec: a freshly initialized clock at tick 0 with the rate
selected by set_tick_rate during init. -/
def TickClock.init (rate : Fin 4) : TickClock := ⟨rate, 0⟩

/-- Modelled from the spec: advance increments the tick counter by exactly 1
and is the only mutator (spec section 4.1). -/
def TickClock.advance (c : TickClock) : TickClock := ⟨c.rate, c.tick + 1⟩

/-- Iterated advance: the valid tick sequences are exactly the iterates of
TickClock.advance from an initialized clock. -/
def TickClock.advanceN (c : TickClock) : ℕ → TickClock
  | 0 => c
  | n + 1 => (c.advanceN n).advance

/-- Modelled from the spec: tick_count returns the current tick number
(src/include/zx.h lines 39-43). -/
def tick_count (c : TickClock) : ℕ := c.tick

/-- Modelled from the spec: elapsed_time is tick_count times the fixed delta,
computed as exact rational arithmetic, not accumulated floating point
(src/include/zx.h lines 31-37 and spec section 3). -/
def elapsed_time (c : TickClock) : ℚ := (c.tick : ℚ) * fixedDelta c.rate

theorem advanceN_rate (rate : Fin 4) (n : ℕ) :
    ((TickClock.init rate).advanceN n).rate = rate := by
  induction n with
  | zero => rfl
  | succ n ih => simp [TickClock.advanceN, TickClock.advance, ih]

theorem advanceN_tick (rate : Fin 4) (n : ℕ) :
    ((TickClock.init rate).advanceN n).tick = n := by
  induction n with
  | zero => rfl
  | succ n ih => simp [TickClock.advanceN, TickClock.advance, ih]

/-- C1: for every tick count n reached by a valid sequence of tick advances,
elapsed_time equals n times the fixed per-tick delta exactly, as exact rational
arithmetic; in particular with rate index 2 (60fps) chosen during init, after
120 advances elapsed_time equals 2 exactly and tick_count equals 120. -/
theorem elapsed_time_exact (rate : Fin 4) (n : ℕ) :
    elapsed_time ((TickClock.init rate).advanceN n) = (n : ℚ) * fixedDelta rate ∧
    tick_count ((TickClock.init rate).advanceN n) = n ∧
    elapsed_time ((TickClock.init 2).advanceN 120) = 2 ∧
    tick_count ((TickClock.init 2).advanceN 120) = 120 := by
  refine ⟨?_, ?_, ?_, ?_⟩
  · simp [elapsed_time, advanceN_tick, advanceN_rate]
  · simp [tick_count, advanceN_tick]
  · simp [elapsed_time, advanceN_tick, advanceN_rate]
    norm_num [fixedDelta, tickRateFps]
  · simp [tick_count, advanceN_tick]

/-! ## Input snapshot -/

/-- Modelled from the spec: the per-tick input snapshot holds, per player, the
previous tick held-button bitmask and the current tick raw held-button bitmask,
each a 16-bit mask (spec sections 3 and 4.2).  The host input implementation is
not under src/. -/
structure InputSnapshot where
  playerCount : ℕ
  prevHeld : ℕ → ℕ
  rawHeld : ℕ → ℕ

/-- The previous-tick 16-bit held mask of one player, with the out-of-range
player reporting an empty mask (spec section 4.2). -/
def InputSnapshot.prevMask (s : InputSnapshot) (player : ℕ) : ℕ :=
  if player < s.playerCount then s.prevHeld player % 2 ^ 16 else 0

/-- The current-tick 16-bit held mask of one player, with the out-of-range
player reporting an empty mask (spec section 4.2). -/
def InputSnapshot.heldMask (s : InputSnapshot) (player : ℕ) : ℕ :=
  if player < s.playerCount then s.rawHeld player % 2 ^ 16 else 0

/-- Modelled from the spec: bitmask of all held buttons
(src/include/zx.h lines 192-193). -/
def buttons_held (s : InputSnapshot) (player : ℕ) : ℕ := s.heldMask player

/-- Modelled from the spec: the pressed mask is held AND NOT previous-held,
the complement taken within the 16-bit button space (spec section 4.2 and
src/include/zx.h lines 195-196). -/
def buttons_pressed (s : InputSnapshot) (player : ℕ) : ℕ :=
  s.heldMask player &&& (s.prevMask player ^^^ (2 ^ 16 - 1))

/-- Modelled from the spec: the released mask is previous-held AND NOT held,
the complement taken within the 16-bit button space (spec section 4.2 and
src/include/zx.h lines 198-199). -/
def buttons_released (s : InputSnapshot) (player : ℕ) : ℕ :=
  s.prevMask player &&& (s.heldMask player ^^^ (2 ^ 16 - 1))

/-- Modelled from the spec: button_held returns 1 when the button bit is set in
the held mask, with button indices outside 0-13 reporting not held
(src/include/zx.h lines 170-178 and spec section 4.2). -/
def button_held (s : InputSnapshot) (player button : ℕ) : ℕ :=
  if button ≤ 13 then (if (buttons_held s player).testBit button then 1 else 0)
  else 0

/-- Modelled from the spec: button_pressed returns 1 when the button bit is set
in the pressed mask (src/include/zx.h lines 180-184). -/
def button_pressed (s : InputSnapshot) (player button : ℕ) : ℕ :=
  if button ≤ 13 then (if (buttons_pressed s player).testBit button then 1 else 0)
  else 0

/-- Modelled from the spec: button_released returns 1 when the button bit is
set in the released mask (src/include/zx.h lines 186-190). -/
def button_released (s : InputSnapshot) (player button : ℕ) : ℕ :=
  if button ≤ 13 then (if (buttons_released s player).testBit button then 1 else 0)
  else 0

theorem testBit_mask16 {i : ℕ} (hi : i < 16) : Nat.testBit 65535 i = true := by
  have h : (65535 : ℕ) = 2 ^ 16 - 1 := by norm_num
  rw [h, Nat.testBit_two_pow_sub_one]
  simp [hi]

theorem prevMask_lt (s : InputSnapshot) (p : ℕ) : s.prevMask p < 2 ^ 16 := by
  unfold InputSnapshot.prevMask
  split
  · exact Nat.mod_lt _ (by norm_num)
  · norm_num

theorem heldMask_lt (s : InputSnapshot) (p : ℕ) : s.heldMask p < 2 ^ 16 := by
  unfold InputSnapshot.heldMask
  split
  · exact Nat.mod_lt _ (by norm_num)
  · norm_num

theorem testBit_pressed (s : InputSnapshot) (p b : ℕ) (hb : b ≤ 13) :
    (buttons_pressed s p).testBit b =
      ((s.heldMask p).testBit b && !(s.prevMask p).testBit b) := by
  have hb16 : b < 16 := by omega
  simp [buttons_pressed, Nat.testBit_and, Nat.testBit_xor,
    Nat.testBit_two_pow_sub_one, testBit_mask16 hb16, hb16]

theorem testBit_released (s : InputSnapshot) (p b : ℕ) (hb : b ≤ 13) :
    (buttons_released s p).testBit b =
      ((s.prevMask p).testBit b && !(s.heldMask p).testBit b) := by
  have hb16 : b < 16 := by omega
  simp [buttons_released, Nat.testBit_and, Nat.testBit_xor,
    Nat.testBit_two_pow_sub_one, testBit_mask16 hb16, hb16]

/-- C2: for every player and button in range, button_pressed returns 1 exactly
when the held state was false on the previous tick and is true on the current
tick, button_released returns 1 exactly in the mirrored case, and the pressed
and released bitmasks equal held AND NOT previous-held and previous-held AND
NOT held respectively. -/
theorem button_edge_detection (s : InputSnapshot) (p b : ℕ)
    (hp : p < s.playerCount) (hb : b ≤ 13) :
    (button_pressed s p b = 1 ↔
      ((s.prevHeld p % 2 ^ 16).testBit b = false ∧
       (s.rawHeld p % 2 ^ 16).testBit b = true)) ∧
    (button_released s p b = 1 ↔
      ((s.prevHeld p % 2 ^ 16).testBit b = true ∧
       (s.rawHeld p % 2 ^ 16).testBit b = false)) ∧
    buttons_pressed s p = Nat.ldiff (s.heldMask p) (s.prevMask p) ∧
    buttons_released s p = Nat.ldiff (s.prevMask p) (s.heldMask p) := by
  have hprev : s.prevMask p = s.prevHeld p % 2 ^ 16 := by
    simp [InputSnapshot.prevMask, hp]
  have hheld : s.heldMask p = s.rawHeld p % 2 ^ 16 := by
    simp [InputSnapshot.heldMask, hp]
  refine ⟨?_, ?_, ?_, ?_⟩
  · rw [button_pressed, if_pos hb, testBit_pressed s p b hb, hprev, hheld]
    cases hx : (s.rawHeld p % 2 ^ 16).testBit b <;>
      cases hy : (s.prevHeld p % 2 ^ 16).testBit b <;> simp [hx, hy]
  · rw [button_released, if_pos hb, testBit_released s p b hb, hprev, hheld]
    cases hx : (s.rawHeld p % 2 ^ 16).testBit b <;>
      cases hy : (s.prevHeld p % 2 ^ 16).testBit b <;> simp [hx, hy]
  · apply Nat.eq_of_testBit_eq
    intro i
    by_cases hi : i < 16
    · simp [buttons_pressed, Nat.testBit_ldiff, Nat.testBit_and,
        Nat.testBit_xor, Nat.testBit_two_pow_sub_one, testBit_mask16 hi, hi]
    · have h2 : (s.heldMask p).testBit i = false :=
        Nat.testBit_lt_two_pow (lt_of_lt_of_le (heldMask_lt s p)
          (Nat.pow_le_pow_right (by norm_num) (by omega)))
      simp [buttons_pressed, Nat.testBit_ldiff, Nat.testBit_and, h2]
  · apply Nat.eq_of_testBit_eq
    intro i
    by_cases hi : i < 16
    · simp [buttons_released, Nat.testBit_ldiff, Nat.testBit_and,
        Nat.testBit_xor, Nat.testBit_two_pow_sub_one, testBit_mask16 hi, hi]
    · have h2 : (s.prevMask p).testBit i = false :=
        Nat.testBit_lt_two_pow (lt_of_lt_of_le (prevMask_lt s p)
          (Nat.pow_le_pow_right (by norm_num) (by omega)))
      simp [buttons_released, Nat.testBit_ldiff, Nat.testBit_and, h2]

/-- Witness for C2: a concrete snapshot where player 0 presses button 1
(DOWN held now, not held before) and releases button 0 (UP held before, not
now). -/
theorem button_edge_detection_witness :
    button_pressed ⟨1, fun _ => 1, fun _ => 2⟩ 0 1 = 1 ∧
    button_released ⟨1, fun _ => 1, fun _ => 2⟩ 0 0 = 1 := by
  have h1 := button_edge_detection ⟨1, fun _ => 1, fun _ => 2⟩ 0 1
    (by norm_num) (by norm_num)
  have h0 := button_edge_detection ⟨1, fun _ => 1, fun _ => 2⟩ 0 0
    (by norm_num) (by norm_num)
  exact ⟨h1.1.mpr (by decide), h0.2.1.mpr (by decide)⟩

/-- C9: queries for a player index outside the configured player count or a
button index outside 0-13 report not held (return 0) for button_held,
button_pressed and button_released alike. -/
theorem out_of_range_input_not_held (s : InputSnapshot) (p b : ℕ)
    (h : s.playerCount ≤ p ∨ 13 < b) :
    button_held s p b = 0 ∧ button_pressed s p b = 0 ∧ button_released s p b = 0 := by
  rcases h with h | h
  · have hp : ¬ p < s.playerCount := by omega
    have hprev : s.prevMask p = 0 := by simp [InputSnapshot.prevMask, hp]
    have hheld : s.heldMask p = 0 := by simp [InputSnapshot.heldMask, hp]
    refine ⟨?_, ?_, ?_⟩ <;>
      simp [button_held, button_pressed, button_released, buttons_held,
        buttons_pressed, buttons_released, hprev, hheld]
  · have hb : ¬ b ≤ 13 := by omega
    exact ⟨by simp [button_held, hb], by simp [button_pressed, hb],
      by simp [button_released, hb]⟩

/-- Witness for C9: probing player 7 (beyond a 2-player session) and button 99
both report not held. -/
theorem out_of_range_input_not_held_witness :
    button_held ⟨2, fun _ => 3, fun _ => 3⟩ 7 0 = 0 ∧
    button_pressed ⟨2, fun _ => 3, fun _ => 3⟩ 0 99 = 0 := by
  have h1 := out_of_range_input_not_held ⟨2, fun _ => 3, fun _ => 3⟩ 7 0
    (Or.inl (by norm_num))
  have h2 := out_of_range_input_not_held ⟨2, fun _ => 3, fun _ => 3⟩ 0 99
    (Or.inr (by norm_num))
  exact ⟨h1.1, h2.2.1⟩

/-! ## Resource handle registry -/

/-- Modelled from the spec: a per-class handle registry with a monotonically
increasing allocation counter starting above 0, so handle 0 is never allocated
and handles are never reused within a session (spec section 4.3).  The host
registry implementation is not under src/; resources are abstracted as
numeric payloads. -/
structure Registry where
  nextHandle : ℕ
  entries : List (ℕ × ℕ)

/-- Modelled from the spec: a fresh registry; the first allocated handle is 1,
keeping 0 reserved as the invalid handle (spec section 3, Resource Handle). -/
def Registry.init : Registry := ⟨1, []⟩

/-- Modelled from the spec: allocate returns a fresh non-zero handle unique
within the class and bumps the monotone counter (spec section 4.3). -/
def Registry.allocate (r : Registry) (res : ℕ) : ℕ × Registry :=
  (r.nextHandle, ⟨r.nextHandle + 1, (r.nextHandle, res) :: r.entries⟩)

/-- Modelled from the spec: resolve returns the resource behind a handle, with
handle 0 always resolving to not found (spec section 4.3). -/
def Registry.resolve (r : Registry) (h : ℕ) : Option ℕ :=
  if h = 0 then none else r.entries.lookup h

/-- Replay of a session: one load call per listed resource, in call order,
collecting the returned handles. -/
def Registry.allocMany (r : Registry) : List ℕ → List ℕ × Registry
  | [] => ([], r)
  | res :: rest =>
    let step := r.allocate res
    let tail := step.2.allocMany rest
    (step.1 :: tail.1, tail.2)

/-- Handles handed out by a whole session of load calls within one class,
starting from a fresh registry. -/
def sessionHandles (resources : List ℕ) : List ℕ :=
  (Registry.init.allocMany resources).1

theorem allocMany_get (resources : List ℕ) :
    ∀ (r : Registry) (i : ℕ), i < resources.length →
      (r.allocMany resources).1.getD i 0 = r.nextHandle + i := by
  induction resources with
  | nil => intro r i hi; simp at hi
  | cons res rest ih =>
    intro r i hi
    cases i with
    | zero => simp [Registry.allocMany, Registry.allocate]
    | succ i =>
      have h2 := ih ⟨r.nextHandle + 1, (r.nextHandle, res) :: r.entries⟩ i
        (by simpa using Nat.lt_of_succ_lt_succ hi)
      simp only [Registry.allocMany, Registry.allocate, List.getD_cons_succ]
      rw [h2]
      show r.nextHandle + 1 + i = r.nextHandle + (i + 1)
      omega

theorem sessionHandles_get (resources : List ℕ) (i : ℕ) (hi : i < resources.length) :
    (sessionHandles resources).getD i 0 = 1 + i := by
  have := allocMany_get resources Registry.init i hi
  simpa [sessionHandles, Registry.init] using this

/-- C3: within one resource class, two distinct successful load calls of a
session return distinct handles, every returned handle is strictly positive
(handle 0 is never allocated), and resolving handle 0 always yields the
not-found condition. -/
theorem handle_allocation_injective (resources : List ℕ) (i j : ℕ)
    (hi : i < resources.length) (hj : j < resources.length) (hij : i ≠ j) :
    (sessionHandles resources).getD i 0 ≠ (sessionHandles resources).getD j 0 ∧
    0 < (sessionHandles resources).getD i 0 ∧
    (∀ r : Registry, r.resolve 0 = none) := by
  rw [sessionHandles_get resources i hi, sessionHandles_get resources j hj]
  refine ⟨by omega, by omega, ?_⟩
  intro r
  simp [Registry.resolve]

/-- Witness for C3: a two-load session returns the distinct positive handles
1 and 2, and resolving handle 0 in a fresh registry yields not found. -/
theorem handle_allocation_injective_witness :
    (sessionHandles [70, 71]).getD 0 0 ≠ (sessionHandles [70, 71]).getD 1 0 ∧
    0 < (sessionHandles [70, 71]).getD 0 0 ∧
    (∀ r : Registry, r.resolve 0 = none) :=
  handle_allocation_injective [70, 71] 0 1 (by norm_num) (by norm_num) (by norm_num)

/-! ## Audio handles: PCM sounds, tracker modules, music playback -/

/-- Modelled from the spec: rom_tracker looks a tracker module up in the ROM
pack and, on success, returns its registry handle with bit 31 set; on failure
it returns 0 (src/include/zx.h lines 1038-1049).  The host audio
implementation is not under src/. -/
def rom_tracker (trackers : List (String × ℕ)) (id : String) : ℕ :=
  match trackers.lookup id with
  | some base => base ||| 2 ^ 31
  | none => 0

/-- Modelled from the spec: load_tracker parses raw XM data (parsing is out of
scope, represented as an optional parse result) and, on success, returns a
handle with bit 31 set; on failure it returns 0
(src/include/zx.h lines 1051-1062). -/
def load_tracker (parsed : Option ℕ) : ℕ :=
  match parsed with
  | some base => base ||| 2 ^ 31
  | none => 0

/-- Modelled from the spec: load_sound allocates a PCM sound handle from the
sound-class registry (src/include/zx.h lines 1006-1016). -/
def load_sound (r : Registry) (pcm : ℕ) : ℕ × Registry := r.allocate pcm

/-- Handles handed out by a session of load_sound calls. -/
def sessionSoundHandles (pcms : List ℕ) : List ℕ := sessionHandles pcms

/-- Modelled from the spec: the two music resource kinds behind a single
numeric handle (src/include/zx.h lines 1064-1073). -/
inductive MusicKind where
  | pcm
  | tracker
deriving DecidableEq

/-- Modelled from the spec: music_play detects the handle type by bit 31,
0 = PCM sample, 1 = tracker module (src/include/zx.h lines 1064-1073). -/
def music_play (handle : ℕ) : MusicKind :=
  if handle.testBit 31 then MusicKind.tracker else MusicKind.pcm

/-- C7: every non-zero handle returned by rom_tracker or load_tracker has bit
31 set, every handle of a load_sound session small enough to stay below 2^31
has bit 31 clear (and is non-zero), and music_play determines the resource
kind solely from bit 31 of the handle. -/
theorem tracker_handle_bit31 (trackers : List (String × ℕ)) (id : String)
    (parsed : Option ℕ) (pcms : List ℕ) (i : ℕ)
    (hrom : rom_tracker trackers id ≠ 0) (hload : load_tracker parsed ≠ 0)
    (hi : i < pcms.length) (hsmall : i + 1 < 2 ^ 31) :
    (rom_tracker trackers id).testBit 31 = true ∧
    (load_tracker parsed).testBit 31 = true ∧
    ((sessionSoundHandles pcms).getD i 0).testBit 31 = false ∧
    (sessionSoundHandles pcms).getD i 0 ≠ 0 ∧
    (∀ h h' : ℕ, h.testBit 31 = h'.testBit 31 → music_play h = music_play h') := by
  have hbit31 : Nat.testBit 2147483648 31 = true := by
    rw [show (2147483648 : ℕ) = 2 ^ 31 by norm_num]
    exact Nat.testBit_two_pow_self
  refine ⟨?_, ?_, ?_, ?_, ?_⟩
  · unfold rom_tracker at hrom ⊢
    cases htbl : List.lookup id trackers with
    | none => rw [htbl] at hrom; simp at hrom
    | some base => simp [Nat.testBit_or, hbit31]
  · unfold load_tracker at hload ⊢
    cases parsed with
    | none => simp at hload
    | some base => simp [Nat.testBit_or, hbit31]
  · rw [sessionSoundHandles, sessionHandles_get pcms i hi]
    exact Nat.testBit_lt_two_pow (by omega)
  · rw [sessionSoundHandles, sessionHandles_get pcms i hi]
    omega
  · intro h h' hbit
    unfold music_play
    rw [hbit]

/-- Witness for C7: a concrete tracker handle has bit 31 set, the first sound
handle of a session is 1 with bit 31 clear, and music_play agrees on two
handles that share bit 31. -/
theorem tracker_handle_bit31_witness :
    (rom_tracker [("song", 5)] "song").testBit 31 = true ∧
    ((sessionSoundHandles [9]).getD 0 0).testBit 31 = false := by
  have h := tracker_handle_bit31 [("song", 5)] "song" (some 7) [9] 0
    (by decide) (by decide) (by norm_num) (by norm_num)
  exact ⟨h.1, h.2.2.1⟩

/-! ## Save slots -/

/-- Modelled from the spec: persistent save storage exposes eight slots, each
holding a byte string, the empty string meaning no data (spec section 6,
Save-slot operations).  The host storage implementation is not under src/. -/
structure SaveState where
  slots : ℕ → List ℕ

/-- Fresh save storage: every slot is empty. -/
def SaveState.init : SaveState := ⟨fun _ => []⟩

/-- Modelled from the spec: save writes data to a slot and returns 0 on
success, 1 for an invalid slot (valid slots are 0-7), 2 for data larger than
64KB (src/include/zx.h lines 79-88). -/
def save (st : SaveState) (slot : ℕ) (data : List ℕ) : ℕ × SaveState :=
  if 8 ≤ slot then (1, st)
  else if 65536 < data.length then (2, st)
  else (0, ⟨fun k => if k = slot then data else st.slots k⟩)

/-- Modelled from the spec: load copies at most maxLen bytes of a slot into the
guest buffer and returns the number of bytes read, 0 meaning empty or error
(src/include/zx.h lines 90-99). -/
def load (st : SaveState) (slot : ℕ) (maxLen : ℕ) : ℕ × List ℕ :=
  if 8 ≤ slot then (0, [])
  else
    let bytes := (st.slots slot).take maxLen
    (bytes.length, bytes)

/-- Modelled from the spec: delete_save empties a slot and returns 0 on
success, 1 for an invalid slot (src/include/zx.h lines 101-105). -/
def delete_save (st : SaveState) (slot : ℕ) : ℕ × SaveState :=
  if 8 ≤ slot then (1, st)
  else (0, ⟨fun k => if k = slot then [] else st.slots k⟩)

/-- C8: save slots round-trip.  For a valid slot and data of at most 64KB,
save returns 0 and a subsequent load with a buffer at least as large returns
the exact byte count and byte-identical content; delete_save on a valid slot
returns 0 and a subsequent load of that slot returns 0; save returns 1 for an
invalid slot and 2 for over-64KB data in a valid slot. -/
theorem save_load_roundtrip (st : SaveState) (s : ℕ) (data : List ℕ) (maxLen : ℕ)
    (badSlot : ℕ) (big : List ℕ)
    (hs : s < 8) (hlen : data.length ≤ 65536) (hbuf : data.length ≤ maxLen)
    (hbad : 8 ≤ badSlot) (hbig : 65536 < big.length) :
    (save st s data).1 = 0 ∧
    (load (save st s data).2 s maxLen).1 = data.length ∧
    (load (save st s data).2 s maxLen).2 = data ∧
    (delete_save st s).1 = 0 ∧
    (load (delete_save st s).2 s maxLen).1 = 0 ∧
    (save st badSlot data).1 = 1 ∧
    (save st s big).1 = 2 := by
  have hns : ¬ 8 ≤ s := by omega
  have hnd : ¬ 65536 < data.length := by omega
  have htake : data.take maxLen = data := List.take_of_length_le hbuf
  refine ⟨?_, ?_, ?_, ?_, ?_, ?_, ?_⟩
  · simp [save, hns, hnd]
  · simp [save, load, hns, hnd, htake]
  · simp [save, load, hns, hnd, htake]
  · simp [delete_save, hns]
  · simp [delete_save, load, hns]
  · simp [save, hbad]
  · simp [save, hns, hbig]

/-- Witness for C8: slot 0 with a concrete 10-byte payload round-trips, slot 8
is rejected with code 1, and a 65537-byte payload is rejected with code 2. -/
theorem save_load_roundtrip_witness :
    (save SaveState.init 0 [1, 2, 3, 4, 5, 6, 7, 8, 9, 10]).1 = 0 ∧
    (load (save SaveState.init 0 [1, 2, 3, 4, 5, 6, 7, 8, 9, 10]).2 0 64).1 = 10 ∧
    (load (save SaveState.init 0 [1, 2, 3, 4, 5, 6, 7, 8, 9, 10]).2 0 64).2 =
      [1, 2, 3, 4, 5, 6, 7, 8, 9, 10] ∧
    (delete_save SaveState.init 0).1 = 0 ∧
    (load (delete_save SaveState.init 0).2 0 64).1 = 0 ∧
    (save SaveState.init 8 [1, 2, 3, 4, 5, 6, 7, 8, 9, 10]).1 = 1 ∧
    (save SaveState.init 0 (List.replicate 65537 0)).1 = 2 := by
  have h := save_load_roundtrip SaveState.init 0 [1, 2, 3, 4, 5, 6, 7, 8, 9, 10]
    64 8 (List.replicate 65537 0) (by norm_num) (by norm_num) (by norm_num)
    (by norm_num) (by rw [List.length_replicate]; norm_num)
  exact ⟨h.1, h.2.1, h.2.2.1, h.2.2.2.1, h.2.2.2.2.1, h.2.2.2.2.2.1,
    h.2.2.2.2.2.2⟩

/-! ## EPU instruction decoder and compositor

The 128-bit instruction bit layout is embedded from the documented wire format
in src/include/zx.h lines 672-691; the decoder itself is host code not under
src/ and is modelled from spec section 4.6. -/

/-- Opcode field, bits 63..59 of the high word (src/include/zx.h line 675). -/
def epuOpcode (hi : ℕ) : ℕ := hi / 2 ^ 59 % 2 ^ 5

/-- Region bitfield, bits 58..56 of the high word (src/include/zx.h line 676). -/
def epuRegion (hi : ℕ) : ℕ := hi / 2 ^ 56 % 2 ^ 3

/-- Blend mode, bits 55..53 of the high word (src/include/zx.h line 677). -/
def epuBlend (hi : ℕ) : ℕ := hi / 2 ^ 53 % 2 ^ 3

/-- Meta field (domain and variant), bits 52..48 of the high word
(src/include/zx.h line 678). -/
def epuMeta5 (hi : ℕ) : ℕ := hi / 2 ^ 48 % 2 ^ 5

/-- Primary RGB24 color, bits 47..24 of the high word
(src/include/zx.h line 679). -/
def epuColorA (hi : ℕ) : ℕ := hi / 2 ^ 24 % 2 ^ 24

/-- Secondary RGB24 color, bits 23..0 of the high word
(src/include/zx.h line 680). -/
def epuColorB (hi : ℕ) : ℕ := hi % 2 ^ 24

/-- Intensity, bits 63..56 of the low word (src/include/zx.h line 683). -/
def epuIntensity (lo : ℕ) : ℕ := lo / 2 ^ 56 % 2 ^ 8

/-- Parameter a, bits 55..48 of the low word (src/include/zx.h line 684). -/
def epuParamA (lo : ℕ) : ℕ := lo / 2 ^ 48 % 2 ^ 8

/-- Parameter b, bits 47..40 of the low word (src/include/zx.h line 685). -/
def epuParamB (lo : ℕ) : ℕ := lo / 2 ^ 40 % 2 ^ 8

/-- Parameter c, bits 39..32 of the low word (src/include/zx.h line 686). -/
def epuParamC (lo : ℕ) : ℕ := lo / 2 ^ 32 % 2 ^ 8

/-- Parameter d, bits 31..24 of the low word (src/include/zx.h line 687). -/
def epuParamD (lo : ℕ) : ℕ := lo / 2 ^ 24 % 2 ^ 8

/-- Octahedral-encoded direction, bits 23..8 of the low word
(src/include/zx.h line 688). -/
def epuDirection (lo : ℕ) : ℕ := lo / 2 ^ 8 % 2 ^ 16

/-- Alpha of color a, bits 7..4 of the low word (src/include/zx.h line 689). -/
def epuAlphaA (lo : ℕ) : ℕ := lo / 2 ^ 4 % 2 ^ 4

/-- Alpha of color b, bits 3..0 of the low word (src/include/zx.h line 690). -/
def epuAlphaB (lo : ℕ) : ℕ := lo % 2 ^ 4

/-- An environment configuration is 16 u64 words, slot i stored as the word
pair [hi, lo] at indices 2i and 2i+1 (src/include/zx.h lines 658-670).  The
high word of slot i, truncated to 64 bits. -/
def slotHi (cfg : List ℕ) (i : ℕ) : ℕ := cfg.getD (2 * i) 0 % 2 ^ 64

/-- The low word of slot i, truncated to 64 bits. -/
def slotLo (cfg : List ℕ) (i : ℕ) : ℕ := cfg.getD (2 * i + 1) 0 % 2 ^ 64

/-- Modelled from the spec: the decoded fields of one non-NOP instruction slot,
exactly the data the generator and compositor consume (spec section 4.6).  The
generator sub-algorithms themselves are out-of-scope rendering backend code, so
a slot contribution is represented by its decoded field tuple. -/
structure SlotFields where
  slot : ℕ
  opcode : ℕ
  region : ℕ
  blendMode : ℕ
  meta5 : ℕ
  colorA : ℕ
  colorB : ℕ
  intensity : ℕ
  paramA : ℕ
  paramB : ℕ
  paramC : ℕ
  paramD : ℕ
  direction : ℕ
  alphaA : ℕ
  alphaB : ℕ
deriving DecidableEq, Repr

/-- Decode every field of slot i of a configuration. -/
def decodeSlot (cfg : List ℕ) (i : ℕ) : SlotFields :=
  { slot := i
    opcode := epuOpcode (slotHi cfg i)
    region := epuRegion (slotHi cfg i)
    blendMode := epuBlend (slotHi cfg i)
    meta5 := epuMeta5 (slotHi cfg i)
    colorA := epuColorA (slotHi cfg i)
    colorB := epuColorB (slotHi cfg i)
    intensity := epuIntensity (slotLo cfg i)
    paramA := epuParamA (slotLo cfg i)
    paramB := epuParamB (slotLo cfg i)
    paramC := epuParamC (slotLo cfg i)
    paramD := epuParamD (slotLo cfg i)
    direction := epuDirection (slotLo cfg i)
    alphaA := epuAlphaA (slotLo cfg i)
    alphaB := epuAlphaB (slotLo cfg i) }

/-- Modelled from the spec: compositing one slot onto the accumulated layer;
a slot whose opcode is 0 (NOP) contributes nothing, any other slot composites
its decoded contribution on top of the accumulator (spec section 4.6). -/
def applySlot (cfg : List ℕ) (acc : List SlotFields) (i : ℕ) : List SlotFields :=
  if epuOpcode (slotHi cfg i) = 0 then acc else acc ++ [decodeSlot cfg i]

/-- Composite the given slots, in list order, onto an empty layer. -/
def decodeSlots (cfg : List ℕ) (idxs : List ℕ) : List SlotFields :=
  idxs.foldl (applySlot cfg) []

/-- Modelled from the spec: decode composites the 8 slots in fixed index order
0 through 7 over an initially empty layer, a pure function of the 1024-bit
configuration alone (spec section 4.6). -/
def decode (cfg : List ℕ) : List SlotFields :=
  (List.range 8).foldl (applySlot cfg) []

/-- Modelled from the spec: the only state the EPU carries within a frame is
the most recently submitted configuration; epu_draw replaces it wholesale
(src/include/zx.h lines 658-663, last call wins). -/
structure EpuFrameState where
  lastConfig : Option (List ℕ)

/-- Modelled from the spec: epu_draw reads the 128-byte configuration by value
and makes it the configuration to be rendered for the frame
(src/include/zx.h lines 658-663). -/
def epu_draw (st : EpuFrameState) (cfg : List ℕ) : EpuFrameState :=
  { lastConfig := some cfg }

/-- The composited layer visible at the end of the frame: the decode of the
most recently drawn configuration, if any. -/
def epuVisible (st : EpuFrameState) : Option (List SlotFields) :=
  st.lastConfig.map decode

/-- Replay a frame: a sequence of epu_draw calls from an arbitrary prior
state. -/
def runDraws (st : EpuFrameState) (calls : List (List ℕ)) : EpuFrameState :=
  calls.foldl epu_draw st

theorem foldl_applySlot_acc (cfg : List ℕ) (idxs : List ℕ) :
    ∀ acc : List SlotFields,
      idxs.foldl (applySlot cfg) acc = acc ++ idxs.foldl (applySlot cfg) [] := by
  induction idxs with
  | nil => intro acc; simp
  | cons i rest ih =>
    intro acc
    simp only [List.foldl_cons]
    rw [ih (applySlot cfg acc i), ih (applySlot cfg [] i)]
    unfold applySlot
    split <;> simp

/-- C4: the EPU output is a pure deterministic function of the configuration
alone.  After any prior frame state and any earlier epu_draw calls, the
visible composited layer is exactly the decode of the last submitted
configuration (no state leaks between calls, last call wins), and decode
composites the 8 slots in fixed index order, all enclosure slots 0-3 before
all radiance slots 4-7. -/
theorem epu_decode_deterministic (st : EpuFrameState) (calls : List (List ℕ))
    (cfg : List ℕ) :
    epuVisible (runDraws st (calls ++ [cfg])) = some (decode cfg) ∧
    decode cfg = decodeSlots cfg [0, 1, 2, 3] ++ decodeSlots cfg [4, 5, 6, 7] ∧
    decode cfg = decodeSlots cfg [0, 1, 2, 3, 4, 5, 6, 7] := by
  refine ⟨?_, ?_, ?_⟩
  · simp [runDraws, epu_draw, epuVisible]
  · have hrange : List.range 8 = [0, 1, 2, 3] ++ [4, 5, 6, 7] := by decide
    rw [decode, hrange, List.foldl_append, decodeSlots, decodeSlots,
      foldl_applySlot_acc]
  · have hrange : List.range 8 = [0, 1, 2, 3, 4, 5, 6, 7] := by decide
    rw [decode, hrange, decodeSlots]

/-- C5: a configuration whose 8 slots all carry opcode 0 (NOP) decodes to the
empty composited layer; every NOP slot contributes nothing. -/
theorem epu_nop_config_transparent (cfg : List ℕ)
    (h : ∀ i < 8, epuOpcode (slotHi cfg i) = 0) :
    decode cfg = [] := by
  have hrange : List.range 8 = [0, 1, 2, 3, 4, 5, 6, 7] := by decide
  rw [decode, hrange]
  simp only [List.foldl_cons, List.foldl_nil, applySlot,
    h 0 (by norm_num), h 1 (by norm_num), h 2 (by norm_num), h 3 (by norm_num),
    h 4 (by norm_num), h 5 (by norm_num), h 6 (by norm_num), h 7 (by norm_num),
    if_true]

/-- Witness for C5: the all-zero 16-word configuration has opcode 0 in every
slot and decodes to the empty layer. -/
theorem epu_nop_config_transparent_witness :
    (∀ i < 8, epuOpcode (slotHi (List.replicate 16 0) i) = 0) ∧
    decode (List.replicate 16 0) = [] := by
  have h : ∀ i < 8, epuOpcode (slotHi (List.replicate 16 0) i) = 0 := by decide
  exact ⟨h, epu_nop_config_transparent (List.replicate 16 0) h⟩

/-! ## ROM data pack loading family -/

/-- Modelled from the spec: the bundled ROM data pack maps string asset IDs to
pre-staged host resources per asset class, raw data entries being byte strings
(spec section 6 and src/include/zx.h lines 1167-1218).  The host ROM pack
implementation is not under src/; resources are abstracted as their registry
handles. -/
structure RomPack where
  textures : List (String × ℕ)
  meshes : List (String × ℕ)
  skeletons : List (String × ℕ)
  fonts : List (String × ℕ)
  sounds : List (String × ℕ)
  keyframes : List (String × ℕ)
  trackers : List (String × ℕ)
  rawData : List (String × List ℕ)

/-- Modelled from the spec: the fault a ROM-pack load surfaces when the asset
is not found; it aborts the call instead of returning a sentinel
(spec section 7). -/
inductive RomTrap where
  | assetNotFound
deriving DecidableEq

/-- Modelled from the spec: shared lookup of a handle table that traps on a
missing asset (spec sections 6 and 7). -/
def romResolve (tbl : List (String × ℕ)) (id : String) : Except RomTrap ℕ :=
  match List.lookup id tbl with
  | some h => Except.ok h
  | none => Except.error RomTrap.assetNotFound

/-- Modelled from the spec: rom_texture returns a texture handle, trapping on
failure (src/include/zx.h lines 1167-1175). -/
def rom_texture (pack : RomPack) (id : String) : Except RomTrap ℕ :=
  romResolve pack.textures id

/-- Modelled from the spec: rom_mesh returns a mesh handle, trapping on
failure (src/include/zx.h lines 1177-1181). -/
def rom_mesh (pack : RomPack) (id : String) : Except RomTrap ℕ :=
  romResolve pack.meshes id

/-- Modelled from the spec: rom_skeleton returns a skeleton handle, trapping
on failure (src/include/zx.h lines 1183-1187). -/
def rom_skeleton (pack : RomPack) (id : String) : Except RomTrap ℕ :=
  romResolve pack.skeletons id

/-- Modelled from the spec: rom_font returns a font-atlas texture handle,
trapping on failure (src/include/zx.h lines 1189-1193). -/
def rom_font (pack : RomPack) (id : String) : Except RomTrap ℕ :=
  romResolve pack.fonts id

/-- Modelled from the spec: rom_sound returns a sound handle, trapping on
failure (src/include/zx.h lines 1195-1199). -/
def rom_sound (pack : RomPack) (id : String) : Except RomTrap ℕ :=
  romResolve pack.sounds id

/-- Modelled from the spec: rom_keyframes returns a keyframe collection
handle, trapping on failure (src/include/zx.h lines 944-954). -/
def rom_keyframes (pack : RomPack) (id : String) : Except RomTrap ℕ :=
  romResolve pack.keyframes id

/-- Modelled from the spec: rom_data_len returns the byte size of a raw data
asset, trapping if not found (src/include/zx.h lines 1201-1207). -/
def rom_data_len (pack : RomPack) (id : String) : Except RomTrap ℕ :=
  match List.lookup id pack.rawData with
  | some bytes => Except.ok bytes.length
  | none => Except.error RomTrap.assetNotFound

/-- Modelled from the spec: rom_data copies at most maxLen bytes of a raw data
asset into guest memory, trapping on failure (src/include/zx.h
lines 1209-1218). -/
def rom_data (pack : RomPack) (id : String) (maxLen : ℕ) : Except RomTrap (List ℕ) :=
  match List.lookup id pack.rawData with
  | some bytes => Except.ok (bytes.take maxLen)
  | none => Except.error RomTrap.assetNotFound

/-- A handle table is well formed when every staged handle is non-zero, the
registry invariant of spec section 4.3. -/
def handleTableWF (tbl : List (String × ℕ)) : Prop :=
  ∀ e ∈ tbl, 0 < e.2

/-- A ROM pack is well formed when all of its handle tables are. -/
def RomPack.wf (p : RomPack) : Prop :=
  handleTableWF p.textures ∧ handleTableWF p.meshes ∧
  handleTableWF p.skeletons ∧ handleTableWF p.fonts ∧
  handleTableWF p.sounds ∧ handleTableWF p.keyframes ∧
  handleTableWF p.trackers

theorem lookup_pos (tbl : List (String × ℕ)) (id : String)
    (hwf : handleTableWF tbl) (v : ℕ) (h : List.lookup id tbl = some v) :
    0 < v := by
  induction tbl with
  | nil => simp [List.lookup] at h
  | cons e rest ih =>
    obtain ⟨k, b⟩ := e
    rw [List.lookup] at h
    by_cases heq : id = k
    · have : (id == k) = true := by simp [heq]
      rw [this] at h
      simp only [Option.some.injEq] at h
      subst h
      exact hwf (k, b) (by simp)
    · have : (id == k) = false := by simp [heq]
      rw [this] at h
      exact ih (fun e he => hwf e (List.mem_cons_of_mem _ he)) h

theorem romResolve_trap (tbl : List (String × ℕ)) (id : String)
    (h : List.lookup id tbl = none) :
    romResolve tbl id = Except.error RomTrap.assetNotFound := by
  unfold romResolve
  rw [h]

theorem romResolve_ne_ok_zero (tbl : List (String × ℕ)) (id : String)
    (hwf : handleTableWF tbl) : romResolve tbl id ≠ Except.ok 0 := by
  unfold romResolve
  cases h : List.lookup id tbl with
  | none => simp
  | some v =>
    have := lookup_pos tbl id hwf v h
    simp
    omega

/-- C6 amended: every call in the ROM-pack loading family except rom_tracker
(rom_texture, rom_mesh, rom_skeleton, rom_font, rom_sound, rom_keyframes,
rom_data_len, rom_data) traps when the asset is not found, and the
handle-returning members never yield the failure sentinel 0; rom_tracker
instead returns 0 on failure, like the runtime-uploaded loaders. -/
theorem rom_family_trap_contract (pack : RomPack) (id : String) (maxLen : ℕ)
    (hwf : pack.wf) :
    (List.lookup id pack.textures = none →
      rom_texture pack id = Except.error RomTrap.assetNotFound) ∧
    (List.lookup id pack.meshes = none →
      rom_mesh pack id = Except.error RomTrap.assetNotFound) ∧
    (List.lookup id pack.skeletons = none →
      rom_skeleton pack id = Except.error RomTrap.assetNotFound) ∧
    (List.lookup id pack.fonts = none →
      rom_font pack id = Except.error RomTrap.assetNotFound) ∧
    (List.lookup id pack.sounds = none →
      rom_sound pack id = Except.error RomTrap.assetNotFound) ∧
    (List.lookup id pack.keyframes = none →
      rom_keyframes pack id = Except.error RomTrap.assetNotFound) ∧
    (List.lookup id pack.rawData = none →
      rom_data_len pack id = Except.error RomTrap.assetNotFound) ∧
    (List.lookup id pack.rawData = none →
      rom_data pack id maxLen = Except.error RomTrap.assetNotFound) ∧
    rom_texture pack id ≠ Except.ok 0 ∧
    rom_mesh pack id ≠ Except.ok 0 ∧
    rom_skeleton pack id ≠ Except.ok 0 ∧
    rom_font pack id ≠ Except.ok 0 ∧
    rom_sound pack id ≠ Except.ok 0 ∧
    rom_keyframes pack id ≠ Except.ok 0 ∧
    (List.lookup id pack.trackers = none → rom_tracker pack.trackers id = 0) := by
  obtain ⟨w1, w2, w3, w4, w5, w6, _⟩ := hwf
  refine ⟨fun h => romResolve_trap _ _ h, fun h => romResolve_trap _ _ h,
    fun h => romResolve_trap _ _ h, fun h => romResolve_trap _ _ h,
    fun h => romResolve_trap _ _ h, fun h => romResolve_trap _ _ h,
    ?_, ?_,
    romResolve_ne_ok_zero _ _ w1, romResolve_ne_ok_zero _ _ w2,
    romResolve_ne_ok_zero _ _ w3, romResolve_ne_ok_zero _ _ w4,
    romResolve_ne_ok_zero _ _ w5, romResolve_ne_ok_zero _ _ w6, ?_⟩
  · intro h
    unfold rom_data_len
    rw [h]
  · intro h
    unfold rom_data
    rw [h]
  · intro h
    unfold rom_tracker
    rw [h]

/-- Counterexample to C6 as stated: rom_tracker belongs to the ROM-pack
loading family, yet on a missing asset it returns the failure sentinel 0
instead of trapping (src/include/zx.h lines 1038-1049 document the 0 return),
so not every member of the family traps. -/
theorem rom_tracker_sentinel_counterexample :
    rom_tracker ([] : List (String × ℕ)) "missing" = 0 := rfl

/-- A tiny concrete well-formed ROM pack for the C6 witness. -/
def packW : RomPack :=
  { textures := [("tex", 1)]
    meshes := []
    skeletons := []
    fonts := []
    sounds := []
    keyframes := []
    trackers := []
    rawData := [] }

theorem packW_wf : packW.wf := by
  refine ⟨?_, ?_, ?_, ?_, ?_, ?_, ?_⟩ <;>
    intro e he <;> simp [packW] at he <;> simp [he]

/-- Witness for C6 (amended): on the concrete pack, a missing mesh traps, the
staged texture load never yields the sentinel 0, and rom_tracker on a missing
module returns 0. -/
theorem rom_family_trap_contract_witness :
    rom_mesh packW "nope" = Except.error RomTrap.assetNotFound ∧
    rom_texture packW "tex" ≠ Except.ok 0 ∧
    rom_tracker packW.trackers "nope" = 0 := by
  have h1 := rom_family_trap_contract packW "nope" 4 packW_wf
  have h2 := rom_family_trap_contract packW "tex" 4 packW_wf
  exact ⟨h1.2.1 rfl, h2.2.2.2.2.2.2.2.2.1,
    h1.2.2.2.2.2.2.2.2.2.2.2.2.2.2 rfl⟩

/-! ## Example game: hello-world-c -/

/-- Clamp a value between min and max, embedded from
src/include/emberware_zx.h lines 1000-1004.  Floats are modelled as exact
rationals: every value the example game produces is exactly representable in
binary32 and the comparisons are exact. -/
def ewzx_clampf (val lo hi : ℚ) : ℚ :=
  if val < lo then lo
  else if val > hi then hi
  else val

/-- Game state embedded from src/examples/hello-world-c/game.c line 16:
square_y starts at 200. -/
structure GameState where
  square_y : ℚ

/-- Initial game state, square_y = 200 (game.c line 16). -/
def GameState.start : GameState := ⟨200⟩

/-- The button edges the example game reads in one update call. -/
structure TickButtons where
  up : Bool
  down : Bool
  a : Bool

/-- Embedded from src/examples/hello-world-c/game.c lines 23-39: D-pad UP
moves the square up 10, DOWN moves it down 10, A resets to 200, then the
position is clamped to [20, 450]. -/
def update (inp : TickButtons) (s : GameState) : GameState :=
  let y1 := if inp.up then s.square_y - 10 else s.square_y
  let y2 := if inp.down then y1 + 10 else y1
  let y3 := if inp.a then 200 else y2
  ⟨ewzx_clampf y3 20 450⟩

/-- Run the example game: init followed by one update per tick input. -/
def runGame (inputs : List TickButtons) : GameState :=
  inputs.foldl (fun s inp => update inp s) GameState.start

theorem ewzx_clampf_mem (v lo hi : ℚ) (h : lo ≤ hi) :
    lo ≤ ewzx_clampf v lo hi ∧ ewzx_clampf v lo hi ≤ hi := by
  unfold ewzx_clampf
  split_ifs with h1 h2
  · exact ⟨le_refl lo, h⟩
  · exact ⟨h, le_refl hi⟩
  · exact ⟨by linarith, by linarith⟩

theorem update_bounded (inp : TickButtons) (s : GameState) :
    20 ≤ (update inp s).square_y ∧ (update inp s).square_y ≤ 450 :=
  ewzx_clampf_mem _ 20 450 (by norm_num)

theorem foldl_update_bounded (inputs : List TickButtons) :
    ∀ s : GameState, 20 ≤ s.square_y → s.square_y ≤ 450 →
      20 ≤ (inputs.foldl (fun s inp => update inp s) s).square_y ∧
      (inputs.foldl (fun s inp => update inp s) s).square_y ≤ 450 := by
  induction inputs with
  | nil => intro s h1 h2; exact ⟨h1, h2⟩
  | cons inp rest ih =>
    intro s h1 h2
    simp only [List.foldl_cons]
    exact ih (update inp s) (update_bounded inp s).1 (update_bounded inp s).2

/-- C10: in the example game, square_y starts at 200, inside [20, 450], and
after any finite sequence of update calls with arbitrary per-tick button
inputs it still lies in [20, 450], because every mutation is followed by a
clamp to that interval. -/
theorem square_y_always_bounded (inputs : List TickButtons) :
    20 ≤ GameState.start.square_y ∧ GameState.start.square_y ≤ 450 ∧
    20 ≤ (runGame inputs).square_y ∧ (runGame inputs).square_y ≤ 450 := by
  have hstart1 : (20 : ℚ) ≤ GameState.start.square_y := by
    norm_num [GameState.start]
  have hstart2 : GameState.start.square_y ≤ 450 := by
    norm_num [GameState.start]
  have h := foldl_update_bounded inputs GameState.start hstart1 hstart2
  exact ⟨hstart1, hstart2, h.1, h.2⟩

end Nethercore
